import Mathlib

/-!
# Verification of the Operational Space Controller (`irl_control/osc.py`)

Shallow embedding of the OSC control core.  numpy 1-d arrays are `List ℝ`,
numpy 2-d arrays are `List (List ℝ)` (lists of rows).  Exact real arithmetic
stands in for IEEE floats.  The numerical decomposition `np.linalg.svd` is
transcendental, so it is modelled as an oracle parameter `np_svd` supplying a
`(u, s, v)` triple; everything done *with* the triple (reciprocation,
truncation, reassembly, the determinant branch) is embedded exactly.
Likewise `transforms3d.euler.quat2euler` is an oracle parameter `q2e`, while
`qmult`, `qconjugate` and `normalized_vector` are embedded exactly
(`normalized_vector` via `Real.sqrt`).
-/

open scoped Classical

noncomputable section

/-! ## numpy-style list vectors and matrices -/

/-- Dot product of two list vectors (`np.dot` on 1-d arrays). -/
def dot (a b : List ℝ) : ℝ :=
  ((a.zip b).map (fun p => p.1 * p.2)).sum

/-- Elementwise vector sum. -/
def listAdd (a b : List ℝ) : List ℝ :=
  List.zipWith (fun x y => x + y) a b

/-- Elementwise vector difference. -/
def listSub (a b : List ℝ) : List ℝ :=
  List.zipWith (fun x y => x - y) a b

/-- Elementwise vector product (numpy `*` broadcasting on equal shapes). -/
def listMul (a b : List ℝ) : List ℝ :=
  List.zipWith (fun x y => x * y) a b

/-- Column `j` of a row-list matrix. -/
def colL (A : List (List ℝ)) (j : ℕ) : List ℝ :=
  A.map (fun r => r.getD j 0)

/-- Transpose of a row-list matrix (column count taken from the first row). -/
def transposeL (A : List (List ℝ)) : List (List ℝ) :=
  (List.range (A.headD []).length).map (colL A)

/-- Matrix-vector product (`np.dot` of a 2-d and a 1-d array). -/
def matVec (A : List (List ℝ)) (x : List ℝ) : List ℝ :=
  A.map (fun r => dot r x)

/-- Matrix-matrix product (`np.dot` of two 2-d arrays). -/
def matMul (A B : List (List ℝ)) : List (List ℝ) :=
  A.map (fun r => (List.range (B.headD []).length).map (fun j => dot r (colL B j)))

/-- Elementwise matrix difference. -/
def matSub (A B : List (List ℝ)) : List (List ℝ) :=
  List.zipWith listSub A B

/-- `np.diag` of a vector: square matrix with the vector on the diagonal. -/
def diagL (s : List ℝ) : List (List ℝ) :=
  (List.range s.length).map (fun i =>
    (List.range s.length).map (fun j => if i = j then s.getD i 0 else 0))

/-- `np.eye n`. -/
def eyeL (n : ℕ) : List (List ℝ) :=
  diagL (List.replicate n 1)

/-- Largest entry of a list (numpy `amax`; the source only applies it to
nonempty lists of nonnegative singular values, where the `0` seed is inert). -/
def maxL (s : List ℝ) : ℝ :=
  s.foldr max 0

/-- `np.linalg.norm` of a 1-d array: the Euclidean norm. -/
def normL (v : List ℝ) : ℝ :=
  Real.sqrt ((v.map (fun x => x ^ 2)).sum)

/-- View a square row-list matrix as a Mathlib matrix (used only to state the
determinant, `np.linalg.det`). -/
def toMat (A : List (List ℝ)) : Matrix (Fin A.length) (Fin A.length) ℝ :=
  Matrix.of (fun i j => (A.getD i.val []).getD j.val 0)

/-- `np.linalg.det` of a square row-list matrix. -/
def detL (A : List (List ℝ)) : ℝ :=
  (toMat A).det

/-- Boolean-mask fancy indexing `v[mask]`: keep entries at `True` positions. -/
def maskSelect : List Bool → List ℝ → List ℝ
  | true :: m, x :: xs => x :: maskSelect m xs
  | false :: m, _ :: xs => maskSelect m xs
  | _, _ => []

/-- Boolean-mask fancy increment `v[mask] += vals`: add the entries of `vals`,
in order, at the `True` positions of the mask. -/
def maskAdd : List ℝ → List Bool → List ℝ → List ℝ
  | x :: xs, true :: m, vals => (x + vals.headD 0) :: maskAdd xs m vals.tail
  | x :: xs, false :: m, vals => x :: maskAdd xs m vals
  | xs, _, _ => xs

/-- Integer fancy assignment `u[ids] = vals` (positionwise, numpy order). -/
def np_put (u : List ℝ) (ids : List ℕ) (vals : List ℝ) : List ℝ :=
  (ids.zip vals).foldl (fun acc p => acc.set p.1 p.2) u

/-- Integer fancy indexing `v[ids]`. -/
def selIdx (v : List ℝ) (ids : List ℕ) : List ℝ :=
  ids.map (fun i => v.getD i 0)

/-- Zero out the entries of `v` at positions the mask does not select. -/
def maskZero (mask : List Bool) (v : List ℝ) : List ℝ :=
  List.zipWith (fun b x => if b then x else 0) mask v

/-! ## Quaternions (`transforms3d` conventions: `[w, x, y, z]`) -/

/-- A quaternion in `transforms3d` order `[w, x, y, z]`. -/
structure Quat where
  w : ℝ
  x : ℝ
  y : ℝ
  z : ℝ

/-- `transforms3d.quaternions.qconjugate`. -/
def qconjugate (q : Quat) : Quat :=
  ⟨q.w, -q.x, -q.y, -q.z⟩

/-- `transforms3d.derivations.quaternions.qmult` (Hamilton product). -/
def qmult (a b : Quat) : Quat :=
  ⟨a.w * b.w - a.x * b.x - a.y * b.y - a.z * b.z,
   a.w * b.x + a.x * b.w + a.y * b.z - a.z * b.y,
   a.w * b.y - a.x * b.z + a.y * b.w + a.z * b.x,
   a.w * b.z + a.x * b.y - a.y * b.x + a.z * b.w⟩

/-- Squared Euclidean norm of a quaternion. -/
def qnorm2 (q : Quat) : ℝ :=
  q.w ^ 2 + q.x ^ 2 + q.y ^ 2 + q.z ^ 2

/-- `transforms3d.utils.normalized_vector` applied to a quaternion:
divide by the Euclidean norm. -/
def normalized_vector (q : Quat) : Quat :=
  let n := Real.sqrt (qnorm2 q)
  ⟨q.w / n, q.x / n, q.y / n, q.z / n⟩

/-! ## Data model

The classes `Target`, `Device`, `ControllerConfig` and the robot-state
snapshot live outside `osc.py` (in `irl_control.utils`, `irl_control.device`,
`irl_control.robot`, which are not part of the embedded sources); they are
plain data carriers here. -/

/-- Modelled from the spec: `Target` — desired pose/velocity for one device:
position (3), orientation (quaternion), linear velocity (3), angular
velocity (3). -/
structure Target where
  xyz : List ℝ
  quat : Quat
  xyz_vel : List ℝ
  abg_vel : List ℝ

/-- Modelled from the spec: `Device` — name; boolean masks over the 6
task-space DOF (`ctrlr_dof_xyz`, `ctrlr_dof_abg`), combined 6-bit selection
`ctrlr_dof`; optional velocity limit pair; joint index set `joint_ids_all`;
actuator/control index mapping. -/
structure Device where
  name : String
  ctrlr_dof_xyz : List Bool
  ctrlr_dof_abg : List Bool
  ctrlr_dof : List Bool
  max_vel : Option (ℝ × ℝ)
  joint_ids_all : List ℕ
  actuator_trnids : List ℕ
  ctrl_idxs : List ℕ

/-- Modelled from the spec: `ControllerConfig` — per-device gain bundle
`kv`, `kp`, `ko`, stiffness `k`, damping `d` (3 scalars each), plus the
derived `task_space_gains = [kp,kp,kp,ko,ko,ko]` and
`lamb = task_space_gains / kv` computed once at construction. -/
structure ControllerConfig where
  kv : ℝ
  kp : ℝ
  ko : ℝ
  k : List ℝ
  d : List ℝ
  task_space_gains : List ℝ
  lamb : List ℝ

/-- Raw per-device gain parameters handed to the `OSC` constructor (the
`input_device_configs` dictionaries, before the derived fields exist). -/
structure RawConfig where
  kv : ℝ
  kp : ℝ
  ko : ℝ
  k : List ℝ
  d : List ℝ

/-- The nullspace controller configuration (its `kv` damping gain). -/
structure NullspaceConfig where
  kv : ℝ

/-- The construction-time state of the `OSC` class: per-device gain
configurations, optional nullspace configuration, and the gravity /
admittance flags. -/
structure OSC where
  device_configs : List (String × ControllerConfig)
  nullspace_config : Option NullspaceConfig
  use_g : Bool
  admittance : Bool

/-- Modelled from the spec: the per-tick robot-state snapshot fields that are
global to the robot — mass matrix, joint velocities, gravity bias, joint
bookkeeping, and the running/simulation flags checked at the top of
`generate`. -/
structure Snapshot where
  M : List (List ℝ)
  dq : List ℝ
  qfrc_bias : List ℝ
  num_joints_total : ℕ
  joint_ids_all : List ℕ
  is_using_sim : Bool
  is_running : Bool

/-- Modelled from the spec: the per-device slice of the robot-state snapshot
for one targeted device, bundled with its `Device` descriptor and `Target`
(target-map entries in insertion order): the device Jacobian `Js[name]`, its
row indices `J_idxs[name]` into the stacked Jacobian, end-effector pose, and
the measured wrench. -/
structure TargetedDevice where
  device : Device
  target : Target
  Jdev : List (List ℝ)
  Jidxs : List ℕ
  ee_xyz : List ℝ
  ee_quat : Quat
  forceS : List ℝ
  torqueS : List ℝ

/-- The error taxonomy of the controller: the `raise Exception` in
`__limit_vel` when `device.max_vel` is unset, a `KeyError` on a device name
missing from `device_configs`, and the failed `assert` when the robot is
neither running nor in simulation mode. -/
inductive GenError where
  | missingVelLimit : GenError
  | missingConfig : GenError
  | notRunning : GenError
deriving DecidableEq

/-- The type of the `np.linalg.svd` oracle: a matrix to a `(u, s, v)`
triple. -/
def SvdFn : Type :=
  List (List ℝ) → List (List ℝ) × List ℝ × List (List ℝ)

/-- The type of the `transforms3d.euler.quat2euler` oracle. -/
def EulerFn : Type :=
  Quat → List ℝ

/-! ## `OSC.__svd_solve`, `np.linalg.pinv`, `OSC.__Mx` -/

/-- `OSC.__svd_solve`:
`u, s, v = np.linalg.svd(A)` and
`Ainv = np.dot(v.transpose(), np.dot(np.diag(s**-1), u.transpose()))` —
decompose, reciprocate each singular value, reassemble. -/
def svd_solve (np_svd : SvdFn) (A : List (List ℝ)) : List (List ℝ) :=
  matMul (transposeL (np_svd A).2.2)
    (matMul (diagL (((np_svd A).2.1).map (fun x => x⁻¹))) (transposeL (np_svd A).1))

/-- The reciprocals `np.linalg.pinv` actually uses: singular values above the
cutoff are reciprocated, the rest are replaced by `0`. -/
def trunc_recip (cutoff : ℝ) (s : List ℝ) : List ℝ :=
  s.map (fun x => if cutoff < x then x⁻¹ else 0)

/-- `np.linalg.pinv(A, rcond)`: SVD, discard singular values at or below
`rcond * max(s)`, reciprocate the rest, reassemble. -/
def np_pinv (np_svd : SvdFn) (A : List (List ℝ)) (rcond : ℝ) : List (List ℝ) :=
  let s := (np_svd A).2.1
  let cutoff := rcond * maxL s
  matMul (transposeL (np_svd A).2.2)
    (matMul (diagL (trunc_recip cutoff s)) (transposeL (np_svd A).1))

/-- `OSC.__Mx`: `M_inv = __svd_solve(M)`; `Mx_inv = J @ M_inv @ J.T`;
`threshold = 1e-4`; if `abs(det(Mx_inv)) >= threshold` then
`Mx = __svd_solve(Mx_inv)` else `Mx = np.linalg.pinv(Mx_inv, rcond=threshold*0.1)`;
returns `(Mx, M_inv)`. -/
def OSC_Mx (np_svd : SvdFn) (J M : List (List ℝ)) :
    List (List ℝ) × List (List ℝ) :=
  let M_inv := svd_solve np_svd M
  let Mx_inv := matMul J (matMul M_inv (transposeL J))
  let threshold : ℝ := 1 / 10000
  if threshold ≤ |detL Mx_inv| then (svd_solve np_svd Mx_inv, M_inv)
  else (np_pinv np_svd Mx_inv (threshold * (1 / 10)), M_inv)

/-! ## `OSC.__limit_vel` -/

/-- `OSC.__limit_vel`: if `device.max_vel` is set, compute for each of the
two sub-vectors the saturation threshold `max_vel_component / gain * kv`,
the scale factor `threshold / norm` when the sub-vector norm exceeds the
threshold (`1` otherwise), and return `kv * scale * lamb * u_task`
componentwise; if `device.max_vel` is unset, raise (`Except.error`). -/
def limit_vel (cfg : ControllerConfig) (u_task : List ℝ) (device : Device) :
    Except GenError (List ℝ) :=
  match device.max_vel with
  | some mv =>
    let kv := cfg.kv
    let kp := cfg.kp
    let ko := cfg.ko
    let lamb := cfg.lamb
    let norm_xyz := normL (u_task.take 3)
    let sat_gain_xyz := mv.1 / kp * kv
    let scale_xyz := mv.1 / kp * kv
    let f_xyz := if sat_gain_xyz < norm_xyz then scale_xyz / norm_xyz else 1
    let norm_abg := normL (u_task.drop 3)
    let sat_gain_abg := mv.2 / ko * kv
    let scale_abg := mv.2 / ko * kv
    let f_abg := if sat_gain_abg < norm_abg then scale_abg / norm_abg else 1
    let scale := List.replicate 3 f_xyz ++ List.replicate 3 f_abg
    Except.ok (listMul (listMul (scale.map (fun x => kv * x)) lamb) u_task)
  | none => Except.error GenError.missingVelLimit

/-! ## `OSC.calc_error` -/

/-- `OSC.calc_error`: `u_task = np.zeros(6)`; if any `ctrlr_dof_xyz` axis is
active, `u_task[:3] = ee_xyz - target_xyz`; if any `ctrlr_dof_abg` axis is
active, `q_d = normalized_vector(target_quat)`,
`q_r = qmult(q_d, qconjugate(ee_quat))`, and
`u_task[3:] = quat2euler(qconjugate(q_r))`.  The device state accessors
`get_state(EE_XYZ)` / `get_state(EE_QUAT)` are supplied as the snapshot
arguments `ee_xyz` / `ee_quat`. -/
def calc_error (q2e : EulerFn) (target : Target) (device : Device)
    (ee_xyz : List ℝ) (ee_quat : Quat) : List ℝ :=
  let xyz_err :=
    if 0 < device.ctrlr_dof_xyz.count true then listSub ee_xyz target.xyz
    else [0, 0, 0]
  let abg_err :=
    if 0 < device.ctrlr_dof_abg.count true then
      let q_d := normalized_vector target.quat
      let q_r := qmult q_d (qconjugate ee_quat)
      q2e (qconjugate q_r)
    else [0, 0, 0]
  xyz_err ++ abg_err

/-! ## `OSC.generate` -/

/-- numpy truthiness of `np.all` on a float vector: all components nonzero.
The source line `if np.all(target_vel) == 0:` takes the first branch exactly
when this predicate is false (some component is zero). -/
def np_all (v : List ℝ) : Prop :=
  ∀ x ∈ v, x ≠ 0

/-- `self.device_configs[device_name]`: association-list lookup; a missing
name is a `KeyError`. -/
def lookup_config (osc : OSC) (name : String) : Except GenError ControllerConfig :=
  match osc.device_configs.lookup name with
  | some cfg => Except.ok cfg
  | none => Except.error GenError.missingConfig

/-- The gain-application branch of the device loop in `OSC.generate`:
`if device.max_vel is not None: u_task = __limit_vel(u_task, device);
u_task *= stiffness else: u_task *= task_space_gains * stiffness`. -/
def shape_u_task (cfg : ControllerConfig) (u_task : List ℝ) (device : Device)
    (stiffness : List ℝ) : Except GenError (List ℝ) :=
  if device.max_vel.isSome then
    match limit_vel cfg u_task device with
    | Except.ok v => Except.ok (listMul v stiffness)
    | Except.error e => Except.error e
  else Except.ok (listMul u_task (listMul cfg.task_space_gains stiffness))

/-- The body of the `for device_name, target in targets.items()` loop of
`OSC.generate`, threading the accumulator `(u_all, u_task_all, ext_f)`:
compute `calc_error`, extend stiffness/damping with three unit gains, shape
the task-space command, then the `kv` branch — the source line
`if np.all(target_vel) == 0:` assigns
`u_all[joint_ids_all] = -1 * kv * uv_all[joint_ids_all]`, and its `else`
adds `kv * (dx[J_idxs] - target_vel[ctrlr_dof]) * damping[ctrlr_dof]` onto
`u_task[ctrlr_dof]` — and finally append the wrench and the shaped command
restricted to `ctrlr_dof`. -/
def device_pass (q2e : EulerFn) (osc : OSC) (dx uv_all : List ℝ)
    (acc : List ℝ × List ℝ × List ℝ) (td : TargetedDevice) :
    Except GenError (List ℝ × List ℝ × List ℝ) :=
  match lookup_config osc td.device.name with
  | Except.error e => Except.error e
  | Except.ok cfg =>
    let u_task := calc_error q2e td.target td.device td.ee_xyz td.ee_quat
    let stiffness := cfg.k ++ [1, 1, 1]
    let damping := cfg.d ++ [1, 1, 1]
    match shape_u_task cfg u_task td.device stiffness with
    | Except.error e => Except.error e
    | Except.ok u_task2 =>
      let kv := cfg.kv
      let target_vel := td.target.xyz_vel ++ td.target.abg_vel
      let step :=
        if ¬ np_all target_vel then
          (np_put acc.1 td.device.joint_ids_all
            ((selIdx uv_all td.device.joint_ids_all).map (fun x => -1 * kv * x)),
           u_task2)
        else
          (acc.1,
           maskAdd u_task2 td.device.ctrlr_dof
            (listMul
              ((listSub (selIdx dx td.Jidxs)
                  (maskSelect td.device.ctrlr_dof target_vel)).map (fun x => kv * x))
              (maskSelect td.device.ctrlr_dof damping)))
      let force := td.forceS ++ td.torqueS
      Except.ok (step.1,
        acc.2.1 ++ maskSelect td.device.ctrlr_dof step.2,
        acc.2.2 ++ maskSelect td.device.ctrlr_dof force)

/-- The full computation of `OSC.generate`: the running assertion, Jacobian
stacking in target-map order, `__Mx`, the shared `dx = J @ dq` and
`uv_all = M @ dq`, the device loop, the task-to-joint projection
`u_all -= J.T @ (Mx @ u_task_all)` (with the external wrench added in
admittance mode), the gravity bias, the nullspace filter, and the final
per-device slicing `(ctrl_idxs, u_all[actuator_trnids])`. -/
def generate_out (np_svd : SvdFn) (q2e : EulerFn) (osc : OSC)
    (snap : Snapshot) (tds : List TargetedDevice) :
    Except GenError (List (List ℕ) × List (List ℝ)) :=
  if snap.is_using_sim = false ∧ snap.is_running = false then
    Except.error GenError.notRunning
  else
    let J := (tds.map (fun td => td.Jdev)).flatten
    let M := snap.M
    let MxMinv := OSC_Mx np_svd J M
    let Mx := MxMinv.1
    let M_inv := MxMinv.2
    let dq := snap.dq
    let dx := matVec J dq
    let uv_all := matVec M dq
    let u_all0 := List.replicate snap.num_joints_total (0 : ℝ)
    Except.map (fun acc : List ℝ × List ℝ × List ℝ =>
      let u_task_all := acc.2.1
      let ext_f := acc.2.2
      let u_all1 := listSub acc.1
        (matVec (transposeL J)
          (matVec Mx (if osc.admittance then listAdd u_task_all ext_f else u_task_all)))
      let u_all2 :=
        if osc.use_g then listAdd u_all1 (selIdx snap.qfrc_bias snap.joint_ids_all)
        else u_all1
      let u_all3 :=
        match osc.nullspace_config with
        | some ns =>
          let u_null := matVec M (dq.map (fun x => -ns.kv * x))
          let Jbar := matMul M_inv (matMul (transposeL J) Mx)
          let null_filter :=
            matSub (eyeL snap.num_joints_total) (matMul (transposeL J) (transposeL Jbar))
          listAdd u_all2 (matVec null_filter u_null)
        | none => u_all2
      (tds.map (fun td => td.device.ctrl_idxs),
       tds.map (fun td => selIdx u_all3 td.device.actuator_trnids)))
      (List.foldlM (device_pass q2e osc dx uv_all)
        (u_all0, ([] : List ℝ), ([] : List ℝ)) tds)

/-- `OSC.generate` as a state-threading function: Python method calls read
and may write `self`; the source method only reads it, so the result is
paired with the construction-time state it was entered with. -/
def generate (np_svd : SvdFn) (q2e : EulerFn) (osc : OSC)
    (snap : Snapshot) (tds : List TargetedDevice) :
    Except GenError (List (List ℕ) × List (List ℝ)) × OSC :=
  (generate_out np_svd q2e osc snap tds, osc)

/-- `OSC.__init__`: wrap each input config, then compute and store
`task_space_gains = [kp]*3 + [ko]*3` and `lamb = task_space_gains / kv` for
every device. -/
def OSC.init (input : List (String × RawConfig)) (ns : Option NullspaceConfig)
    (use_g admittance : Bool) : OSC :=
  { device_configs := input.map (fun p =>
      (p.1,
       { kv := p.2.kv
         kp := p.2.kp
         ko := p.2.ko
         k := p.2.k
         d := p.2.d
         task_space_gains := [p.2.kp, p.2.kp, p.2.kp, p.2.ko, p.2.ko, p.2.ko]
         lamb := [p.2.kp, p.2.kp, p.2.kp, p.2.ko, p.2.ko, p.2.ko].map
           (fun x => x / p.2.kv) }))
    nullspace_config := ns
    use_g := use_g
    admittance := admittance }

/-! ## Concrete fixtures used in witnesses and counterexamples -/

/-- A trivial SVD oracle used to instantiate witnesses. -/
def svd0 : SvdFn :=
  fun _ => ([[1]], [1], [[1]])

/-- A trivial Euler-angle oracle used to instantiate witnesses. -/
def q2e0 : EulerFn :=
  fun _ => [0, 0, 0]

/-- A device with no velocity limit configured. -/
def devNoVel : Device :=
  ⟨"a", [true, true, true], [false, false, false],
   [true, true, true, false, false, false], none, [0, 1], [0, 1], [0, 1]⟩

/-- A device with velocity limit `(1, 1)`. -/
def devVel1 : Device :=
  ⟨"a", [true, true, true], [true, true, true],
   [true, true, true, true, true, true], some (1, 1), [0, 1], [0, 1], [0, 1]⟩

/-- A device with velocity limit `(2, 2)`. -/
def devVel2 : Device :=
  ⟨"a", [true, true, true], [true, true, true],
   [true, true, true, true, true, true], some (2, 2), [0, 1], [0, 1], [0, 1]⟩

/-- Unit gains: `kv = kp = ko = 1`, unit stiffness/damping, the derived
fields as `OSC.__init__` computes them. -/
def cfgUnit : ControllerConfig :=
  ⟨1, 1, 1, [1, 1, 1], [1, 1, 1], [1, 1, 1, 1, 1, 1], [1, 1, 1, 1, 1, 1]⟩

/-- Gains `kv = 1`, `kp = ko = 2`, with `lamb = task_space_gains / kv`. -/
def cfgTwo : ControllerConfig :=
  ⟨1, 2, 2, [1, 1, 1], [1, 1, 1], [2, 2, 2, 2, 2, 2], [2, 2, 2, 2, 2, 2]⟩

/-- A target at the origin with the identity orientation and zero velocity. -/
def tgt0 : Target :=
  ⟨[0, 0, 0], ⟨1, 0, 0, 0⟩, [0, 0, 0], [0, 0, 0]⟩

/-- A device controlling only the `x` translation axis: the `y` and `z`
axes of the translation block are individually unselected. -/
def devMixed : Device :=
  ⟨"a", [true, false, false], [false, false, false],
   [true, false, false, false, false, false], none, [0, 1], [0, 1], [0, 1]⟩

/-- A device controlling only the `x` translation axis but with velocity
limit `(1, 1)` configured, so the limiter runs on its partially-selected
translation block. -/
def devMixedVel : Device :=
  ⟨"a", [true, false, false], [false, false, false],
   [true, false, false, false, false, false], some (1, 1), [0, 1], [0, 1], [0, 1]⟩

/-- A device with every DOF mask turned off. -/
def devNone : Device :=
  ⟨"a", [false, false, false], [false, false, false],
   [false, false, false, false, false, false], none, [0, 1], [0, 1], [0, 1]⟩

/-- A degenerate device with empty masks and index sets. -/
def devEmpty : Device :=
  ⟨"a", [], [], [], none, [], [], []⟩

/-- A target with empty pose and velocity vectors. -/
def tgtE : Target :=
  ⟨[], ⟨1, 0, 0, 0⟩, [], []⟩

/-- A controller holding the unit-gain configuration for device `"a"`. -/
def oscA : OSC :=
  ⟨[("a", cfgUnit)], none, false, false⟩

/-- A targeted-device record for `devEmpty`. -/
def tdE : TargetedDevice :=
  ⟨devEmpty, tgtE, [], [], [], ⟨1, 0, 0, 0⟩, [], []⟩

/-- Gains `kv = 2`, unit `kp`/`ko`, as `OSC.__init__` would derive them. -/
def cfgC1 : ControllerConfig :=
  ⟨2, 1, 1, [1, 1, 1], [1, 1, 1], [1, 1, 1, 1, 1, 1],
   [1 / 2, 1 / 2, 1 / 2, 1 / 2, 1 / 2, 1 / 2]⟩

/-- A controller holding `cfgC1` for device `"a"`. -/
def oscC1 : OSC :=
  ⟨[("a", cfgC1)], none, false, false⟩

/-- A target at the current pose whose velocity vector is
`[1, 0, 0, 0, 0, 0]` — nonzero, but with zero components. -/
def tgtC1 : Target :=
  ⟨[0, 0, 0], ⟨1, 0, 0, 0⟩, [1, 0, 0], [0, 0, 0]⟩

/-- The targeted-device record pairing `devNoVel` with `tgtC1`: the device
sits exactly at the target pose, with zero measured wrench. -/
def tdC1 : TargetedDevice :=
  ⟨devNoVel, tgtC1, [[1, 0], [0, 1], [0, 0]], [0, 1, 2], [0, 0, 0],
   ⟨1, 0, 0, 0⟩, [0, 0, 0], [0, 0, 0]⟩

end

/-! ## Theorems -/

/-- `List.foldlM` over `Except` never reaches an error value the step
function never produces. -/
theorem foldlM_except_ne {α β γ : Type} (f : β → α → Except γ β) (bad : γ)
    (hf : ∀ b a, f b a ≠ Except.error bad) :
    ∀ (l : List α) (b : β), List.foldlM f b l ≠ Except.error bad := by
  intro l
  induction l with
  | nil => intro b h; exact Except.noConfusion h
  | cons a l ih =>
    intro b
    rw [List.foldlM_cons]
    match h : f b a with
    | Except.error e => exact fun hc => hf b a (h.trans hc)
    | Except.ok b2 => exact ih b2

/-- `Except.map` cannot produce an error its argument does not carry. -/
theorem except_map_ne_error {γ α β : Type} (f : α → β) (x : Except γ α) (bad : γ)
    (hx : x ≠ Except.error bad) : Except.map f x ≠ Except.error bad := by
  match x with
  | Except.error e =>
    simp only [Except.map]
    intro hc
    exact hx (by rw [Except.error.inj hc])
  | Except.ok a => simp only [Except.map]; exact fun hc => Except.noConfusion hc

/-- With a velocity limit configured, the limiter returns a command. -/
theorem limit_vel_ok_of_isSome (cfg : ControllerConfig) (u : List ℝ) (d : Device)
    (h : d.max_vel.isSome) : ∃ v, limit_vel cfg u d = Except.ok v := by
  match hm : d.max_vel with
  | some mv => exact ⟨_, by rw [limit_vel, hm]⟩
  | none => rw [hm] at h; exact Bool.noConfusion h

/-- The gain-application branch never produces the missing-velocity-limit
error: the limiter is only entered under the `max_vel is not None` guard. -/
theorem shape_u_task_ne_missingVelLimit (cfg : ControllerConfig) (u : List ℝ)
    (d : Device) (st : List ℝ) :
    shape_u_task cfg u d st ≠ Except.error GenError.missingVelLimit := by
  rw [shape_u_task]
  by_cases h : d.max_vel.isSome
  · obtain ⟨v, hv⟩ := limit_vel_ok_of_isSome cfg u d h
    simp [h, hv]
  · simp [h]

/-- The device-loop body never produces the missing-velocity-limit error. -/
theorem device_pass_ne_missingVelLimit (q2e : EulerFn) (osc : OSC)
    (dx uv_all : List ℝ) (acc : List ℝ × List ℝ × List ℝ) (td : TargetedDevice) :
    device_pass q2e osc dx uv_all acc td ≠ Except.error GenError.missingVelLimit := by
  match hl : lookup_config osc td.device.name with
  | Except.error e =>
    have he : e = GenError.missingConfig := by
      rw [lookup_config] at hl
      match hf : osc.device_configs.lookup td.device.name with
      | some cfg => rw [hf] at hl; exact Except.noConfusion hl
      | none =>
        rw [hf] at hl
        exact (Except.error.inj hl).symm
    subst he
    simp [device_pass, hl]
  | Except.ok cfg =>
    match hs : shape_u_task cfg (calc_error q2e td.target td.device td.ee_xyz td.ee_quat)
        td.device (cfg.k ++ [1, 1, 1]) with
    | Except.error e =>
      have hne := shape_u_task_ne_missingVelLimit cfg
        (calc_error q2e td.target td.device td.ee_xyz td.ee_quat) td.device
        (cfg.k ++ [1, 1, 1])
      rw [hs] at hne
      have he : e ≠ GenError.missingVelLimit := fun hc => hne (by rw [hc])
      simp [device_pass, hl, hs, he]
    | Except.ok u2 => simp [device_pass, hl, hs]

/-- Claim C10: within `generate` the limiter's missing-velocity-limit error
branch is unreachable — `generate` invokes the limiter only for devices
whose `max_vel` is set, and a targeted device without velocity limits
silently takes the static `task_space_gains` branch, so `generate` can never
produce the missing-velocity-limit error. -/
theorem C10_no_missingVelLimit (np_svd : SvdFn) (q2e : EulerFn) (osc : OSC)
    (snap : Snapshot) (tds : List TargetedDevice) :
    (generate np_svd q2e osc snap tds).1 ≠ Except.error GenError.missingVelLimit ∧
    (∀ (cfg : ControllerConfig) (u : List ℝ) (d : Device) (st : List ℝ),
      d.max_vel = none →
      shape_u_task cfg u d st =
        Except.ok (listMul u (listMul cfg.task_space_gains st))) := by
  constructor
  · show generate_out np_svd q2e osc snap tds ≠ Except.error GenError.missingVelLimit
    rw [generate_out]
    by_cases hrun : snap.is_using_sim = false ∧ snap.is_running = false
    · simp only [hrun, if_true]
      intro hcontra
      exact GenError.noConfusion (Except.error.inj hcontra)
    · simp only [if_neg hrun]
      exact except_map_ne_error _ _ _
        (foldlM_except_ne _ _
          (fun b a => device_pass_ne_missingVelLimit q2e osc _ _ b a) tds _)
  · intro cfg u d st hnone
    rw [shape_u_task, hnone]
    rfl

/-- Witness for C10 at a concrete instantiation. -/
theorem C10_no_missingVelLimit_witness :
    (generate svd0 q2e0 ⟨[], none, false, false⟩ ⟨[], [], [], 0, [], true, true⟩ []).1 ≠
      Except.error GenError.missingVelLimit ∧
    shape_u_task cfgUnit [] devNoVel [] =
      Except.ok (listMul [] (listMul cfgUnit.task_space_gains [])) := by
  refine ⟨(C10_no_missingVelLimit svd0 q2e0 ⟨[], none, false, false⟩
    ⟨[], [], [], 0, [], true, true⟩ []).1, ?_⟩
  exact (C10_no_missingVelLimit svd0 q2e0 ⟨[], none, false, false⟩
    ⟨[], [], [], 0, [], true, true⟩ []).2 cfgUnit [] devNoVel [] rfl

/-- Claim C9: `generate` never mutates the controller's construction-time
state: `device_configs` (including the derived `task_space_gains` and
`lamb`), `nullspace_config`, `use_g` and `admittance` are identical before
and after any call. -/
theorem C9_generate_preserves_state (np_svd : SvdFn) (q2e : EulerFn) (osc : OSC)
    (snap : Snapshot) (tds : List TargetedDevice) :
    (generate np_svd q2e osc snap tds).2.device_configs = osc.device_configs ∧
    (generate np_svd q2e osc snap tds).2.nullspace_config = osc.nullspace_config ∧
    (generate np_svd q2e osc snap tds).2.use_g = osc.use_g ∧
    (generate np_svd q2e osc snap tds).2.admittance = osc.admittance :=
  ⟨rfl, rfl, rfl, rfl⟩

/-- Claim C8: the velocity limiter errors exactly when the device it is
called with has no velocity limit configured; in that case it raises the
missing-velocity-limit error without returning a rescaled command, and with
a limit configured it always returns a command (no silent no-op path). -/
theorem C8_limit_vel_error_iff (cfg : ControllerConfig) (u : List ℝ) (d : Device) :
    ((∃ e, limit_vel cfg u d = Except.error e) ↔ d.max_vel = none) ∧
    (d.max_vel = none → limit_vel cfg u d = Except.error GenError.missingVelLimit) ∧
    (d.max_vel ≠ none → ∃ v, limit_vel cfg u d = Except.ok v) := by
  match hm : d.max_vel with
  | some mv =>
    refine ⟨⟨?_, ?_⟩, ?_, ?_⟩
    · rintro ⟨e, he⟩
      rw [limit_vel, hm] at he
      exact Except.noConfusion he
    · intro h; exact Option.noConfusion h
    · intro h; exact Option.noConfusion h
    · intro _; exact ⟨_, by rw [limit_vel, hm]⟩
  | none =>
    refine ⟨⟨fun _ => rfl, ?_⟩, ?_, ?_⟩
    · intro _; exact ⟨GenError.missingVelLimit, by rw [limit_vel, hm]⟩
    · intro _; rw [limit_vel, hm]
    · intro h; exact absurd rfl h

/-- Witness for C8 at a concrete instantiation. -/
theorem C8_limit_vel_error_iff_witness :
    limit_vel cfgUnit [1, 0, 0, 0, 0, 0] devNoVel =
      Except.error GenError.missingVelLimit ∧
    ∃ v, limit_vel cfgUnit [1, 0, 0, 0, 0, 0] devVel1 = Except.ok v := by
  constructor
  · exact (C8_limit_vel_error_iff cfgUnit [1, 0, 0, 0, 0, 0] devNoVel).2.1 rfl
  · exact (C8_limit_vel_error_iff cfgUnit [1, 0, 0, 0, 0, 0] devVel1).2.2
      (fun h => Option.noConfusion h)

/-- Claim C2: `OSC.__Mx` computes `M_inv` by SVD-based inversion (decompose,
reciprocate each singular value, reassemble), forms
`Mx_inv = J · M_inv · Jᵀ`, inverts it by the same SVD routine when
`|det Mx_inv| ≥ 1e-4` and otherwise by the damped pseudo-inverse with
`rcond = 1e-5`, and returns both `Mx` and `M_inv`. -/
theorem C2_task_space_inertia (np_svd : SvdFn) (J M : List (List ℝ)) :
    OSC_Mx np_svd J M =
      (if 1 / 10000 ≤ |detL (matMul J (matMul (svd_solve np_svd M) (transposeL J)))|
       then svd_solve np_svd (matMul J (matMul (svd_solve np_svd M) (transposeL J)))
       else np_pinv np_svd (matMul J (matMul (svd_solve np_svd M) (transposeL J)))
         (1 / 100000),
       svd_solve np_svd M) ∧
    svd_solve np_svd M =
      matMul (transposeL (np_svd M).2.2)
        (matMul (diagL (((np_svd M).2.1).map (fun x => x⁻¹)))
          (transposeL (np_svd M).1)) := by
  constructor
  · rw [OSC_Mx]
    norm_num
    split <;> rfl
  · rfl

/-- Evaluate the Euclidean norm of a 3-entry list against a known square. -/
theorem normL_three (a b c r : ℝ) (hr : 0 ≤ r) (h : a ^ 2 + b ^ 2 + c ^ 2 = r ^ 2) :
    normL [a, b, c] = r := by
  rw [normL]
  simp only [List.map_cons, List.map_nil, List.sum_cons, List.sum_nil, add_zero]
  rw [show a ^ 2 + (b ^ 2 + c ^ 2) = r ^ 2 by rw [← h]; ring]
  exact Real.sqrt_sq hr

/-- Scaling a 3-entry list scales its Euclidean norm by the absolute value. -/
theorem normL_smul3 (c a b d : ℝ) :
    normL [c * a, c * b, c * d] = |c| * normL [a, b, d] := by
  rw [normL, normL]
  simp only [List.map_cons, List.map_nil, List.sum_cons, List.sum_nil, add_zero]
  rw [show (c * a) ^ 2 + ((c * b) ^ 2 + (c * d) ^ 2) =
      c ^ 2 * (a ^ 2 + (b ^ 2 + d ^ 2)) by ring]
  rw [Real.sqrt_mul (sq_nonneg c), Real.sqrt_sq_eq_abs]

/-- The general norm of a scaled list vector. -/
theorem normL_map_mul (c : ℝ) (v : List ℝ) :
    normL (v.map (fun x => c * x)) = |c| * normL v := by
  rw [normL, normL]
  have hsum : ((v.map (fun x => c * x)).map (fun x => x ^ 2)).sum =
      c ^ 2 * ((v.map (fun x => x ^ 2)).sum) := by
    induction v with
    | nil => simp
    | cons x xs ih =>
      simp only [List.map_cons, List.sum_cons, ih]
      ring
  rw [hsum, Real.sqrt_mul (sq_nonneg c), Real.sqrt_sq_eq_abs]

/-- Unfolding of the velocity limiter on an explicit 6-vector and an
explicit `lamb`. -/
theorem limit_vel_six (cfg : ControllerConfig) (d : Device) (mv : ℝ × ℝ)
    (h : d.max_vel = some mv) (l0 l1 l2 l3 l4 l5 u0 u1 u2 u3 u4 u5 : ℝ)
    (hlamb : cfg.lamb = [l0, l1, l2, l3, l4, l5]) :
    limit_vel cfg [u0, u1, u2, u3, u4, u5] d =
      Except.ok
        [cfg.kv * (if mv.1 / cfg.kp * cfg.kv < normL [u0, u1, u2]
            then mv.1 / cfg.kp * cfg.kv / normL [u0, u1, u2] else 1) * l0 * u0,
         cfg.kv * (if mv.1 / cfg.kp * cfg.kv < normL [u0, u1, u2]
            then mv.1 / cfg.kp * cfg.kv / normL [u0, u1, u2] else 1) * l1 * u1,
         cfg.kv * (if mv.1 / cfg.kp * cfg.kv < normL [u0, u1, u2]
            then mv.1 / cfg.kp * cfg.kv / normL [u0, u1, u2] else 1) * l2 * u2,
         cfg.kv * (if mv.2 / cfg.ko * cfg.kv < normL [u3, u4, u5]
            then mv.2 / cfg.ko * cfg.kv / normL [u3, u4, u5] else 1) * l3 * u3,
         cfg.kv * (if mv.2 / cfg.ko * cfg.kv < normL [u3, u4, u5]
            then mv.2 / cfg.ko * cfg.kv / normL [u3, u4, u5] else 1) * l4 * u4,
         cfg.kv * (if mv.2 / cfg.ko * cfg.kv < normL [u3, u4, u5]
            then mv.2 / cfg.ko * cfg.kv / normL [u3, u4, u5] else 1) * l5 * u5] := by
  rw [limit_vel, h, hlamb]
  rfl

/-- The product of a quaternion with its conjugate is the scalar quaternion
carrying the squared norm. -/
theorem qmult_qconjugate_self (q : Quat) :
    qmult q (qconjugate q) = ⟨qnorm2 q, 0, 0, 0⟩ := by
  unfold qmult qconjugate qnorm2
  congr 1 <;> ring

/-- Normalizing a unit quaternion is the identity. -/
theorem normalized_vector_of_unit (q : Quat) (h : qnorm2 q = 1) :
    normalized_vector q = q := by
  rw [normalized_vector, h, Real.sqrt_one]
  cases q
  simp

/-- Subtracting a list vector from itself gives zeros. -/
theorem listSub_self (v : List ℝ) : listSub v v = List.replicate v.length 0 := by
  induction v with
  | nil => rfl
  | cons x xs ih => simp [listSub, List.replicate] at ih ⊢

/-- Claim C4: `calc_error` returns a 6-vector whose first three components
are `current_xyz − target_xyz` whenever `ctrlr_dof_xyz` has an active axis,
and whose last three components are the Euler angles of
`conjugate(q_r)` for `q_r = normalize(target_quat) ⊗ conjugate(current_quat)`
whenever `ctrlr_dof_abg` has an active axis; with all six DOF active and the
target pose equal to the current pose (unit current quaternion) the result
is the zero vector. -/
theorem C4_calc_error (q2e : EulerFn) (target : Target) (device : Device)
    (ee_xyz : List ℝ) (ee_quat : Quat) :
    (0 < device.ctrlr_dof_xyz.count true → ee_xyz.length = 3 →
      target.xyz.length = 3 →
      (calc_error q2e target device ee_xyz ee_quat).take 3 =
        listSub ee_xyz target.xyz) ∧
    (0 < device.ctrlr_dof_abg.count true → ee_xyz.length = 3 →
      target.xyz.length = 3 →
      (calc_error q2e target device ee_xyz ee_quat).drop 3 =
        q2e (qconjugate (qmult (normalized_vector target.quat)
          (qconjugate ee_quat)))) ∧
    (0 < device.ctrlr_dof_xyz.count true → 0 < device.ctrlr_dof_abg.count true →
      ee_xyz.length = 3 → target.xyz = ee_xyz → target.quat = ee_quat →
      qnorm2 ee_quat = 1 → q2e ⟨1, 0, 0, 0⟩ = [0, 0, 0] →
      calc_error q2e target device ee_xyz ee_quat = [0, 0, 0, 0, 0, 0]) := by
  refine ⟨?_, ?_, ?_⟩
  · intro hx he ht
    rw [calc_error]
    simp only [if_pos hx]
    have hlen : (listSub ee_xyz target.xyz).length = 3 := by
      simp [listSub, he, ht]
    rw [← hlen, List.take_left]
  · intro ha he ht
    rw [calc_error]
    simp only [if_pos ha]
    by_cases hx : 0 < device.ctrlr_dof_xyz.count true
    · simp only [if_pos hx]
      have hlen : (listSub ee_xyz target.xyz).length = 3 := by
        simp [listSub, he, ht]
      rw [← hlen, List.drop_left]
    · simp only [if_neg hx]
      have h3 : ([0, 0, 0] : List ℝ).length = 3 := rfl
      rw [← h3, List.drop_left]
  · intro hx ha he htgt hq hunit hq2e
    rw [calc_error]
    simp only [if_pos hx, if_pos ha]
    rw [htgt, hq, listSub_self, he]
    rw [normalized_vector_of_unit ee_quat hunit, qmult_qconjugate_self, hunit]
    have hconj : qconjugate ⟨1, 0, 0, 0⟩ = ⟨1, 0, 0, 0⟩ := by
      rw [qconjugate]; norm_num
    rw [hconj, hq2e]
    rfl

/-- Witness for C4 at a concrete instantiation: all DOF active, target pose
equal to the current pose, identity quaternion. -/
theorem C4_calc_error_witness :
    calc_error q2e0 tgt0 devVel1 [0, 0, 0] ⟨1, 0, 0, 0⟩ = [0, 0, 0, 0, 0, 0] := by
  refine (C4_calc_error q2e0 tgt0 devVel1 [0, 0, 0] ⟨1, 0, 0, 0⟩).2.2 ?_ ?_ rfl rfl rfl ?_ rfl
  · simp [devVel1]
  · simp [devVel1]
  · rw [qnorm2]; norm_num

/-- Claim C5 fails as stated: with `ctrlr_dof_xyz = [T, F, F]` the whole
translation block is still written, so the unselected `y` axis carries the
raw `y` error in the returned error vector. -/
theorem C5_counterexample :
    (calc_error q2e0 tgt0 devMixed [0, 1, 0] ⟨1, 0, 0, 0⟩).getD 1 0 = 1 ∧
    devMixed.ctrlr_dof_xyz.getD 1 true = false ∧
    devMixed.ctrlr_dof.getD 1 true = false := by
  refine ⟨?_, rfl, rfl⟩
  rw [calc_error]
  norm_num [devMixed, tgt0, listSub]

/-- Claim C5 (amended): a fully-unselected translation block stays zero in
the error vector, and likewise a fully-unselected orientation block; the
device loop appends to the accumulated task-space command exactly the
`ctrlr_dof`-selected components of the final per-device command, and zeroing
the unselected positions does not change that selection, so unselected
components never enter the accumulated command; but an individually
unselected axis inside a partially-selected block does contribute to the
limiter's saturation norms — a nonzero unselected component strictly
increases the block norm, and concretely changes the limiter's output. -/
theorem C5_amended :
    (∀ (q2e : EulerFn) (target : Target) (device : Device) (ee_xyz : List ℝ)
        (ee_quat : Quat),
      device.ctrlr_dof_xyz.count true = 0 →
      (calc_error q2e target device ee_xyz ee_quat).take 3 = [0, 0, 0]) ∧
    (∀ (q2e : EulerFn) (target : Target) (device : Device) (ee_xyz : List ℝ)
        (ee_quat : Quat),
      device.ctrlr_dof_abg.count true = 0 → ee_xyz.length = 3 →
      target.xyz.length = 3 →
      (calc_error q2e target device ee_xyz ee_quat).drop 3 = [0, 0, 0]) ∧
    (∀ (q2e : EulerFn) (osc : OSC) (dx uv_all : List ℝ)
        (acc : List ℝ × List ℝ × List ℝ) (td : TargetedDevice)
        (cfg : ControllerConfig) (u2 : List ℝ),
      lookup_config osc td.device.name = Except.ok cfg →
      shape_u_task cfg (calc_error q2e td.target td.device td.ee_xyz td.ee_quat)
        td.device (cfg.k ++ [1, 1, 1]) = Except.ok u2 →
      (device_pass q2e osc dx uv_all acc td).map (fun r => r.2.1) =
        Except.ok (acc.2.1 ++ maskSelect td.device.ctrlr_dof
          (if ¬ np_all (td.target.xyz_vel ++ td.target.abg_vel) then u2
           else maskAdd u2 td.device.ctrlr_dof
            (listMul
              ((listSub (selIdx dx td.Jidxs)
                  (maskSelect td.device.ctrlr_dof
                    (td.target.xyz_vel ++ td.target.abg_vel))).map
                (fun x => cfg.kv * x))
              (maskSelect td.device.ctrlr_dof (cfg.d ++ [1, 1, 1])))))) ∧
    (∀ (mask : List Bool) (v : List ℝ),
      maskSelect mask (maskZero mask v) = maskSelect mask v) ∧
    (∀ a b c : ℝ, b ≠ 0 → normL [a, 0, c] < normL [a, b, c]) ∧
    limit_vel cfgUnit [3, 4, 0, 0, 0, 0] devMixedVel ≠
      limit_vel cfgUnit [3, 0, 0, 0, 0, 0] devMixedVel := by
  refine ⟨?_, ?_, ?_, ?_, ?_, ?_⟩
  · intro q2e target device ee_xyz ee_quat hx
    rw [calc_error]
    have hx2 : ¬ 0 < device.ctrlr_dof_xyz.count true := by
      rw [hx]; exact lt_irrefl 0
    simp only [if_neg hx2]
    have h3 : ([0, 0, 0] : List ℝ).length = 3 := rfl
    rw [← h3, List.take_left]
  · intro q2e target device ee_xyz ee_quat ha he ht
    rw [calc_error]
    have ha2 : ¬ 0 < device.ctrlr_dof_abg.count true := by
      rw [ha]; exact lt_irrefl 0
    simp only [if_neg ha2]
    by_cases hx : 0 < device.ctrlr_dof_xyz.count true
    · simp only [if_pos hx]
      have hlen : (listSub ee_xyz target.xyz).length = 3 := by
        simp [listSub, he, ht]
      rw [← hlen, List.drop_left]
    · simp only [if_neg hx]
      have h3 : ([0, 0, 0] : List ℝ).length = 3 := rfl
      rw [← h3, List.drop_left]
  · intro q2e osc dx uv_all acc td cfg u2 hl hs
    by_cases hnp : np_all (td.target.xyz_vel ++ td.target.abg_vel)
    · simp only [device_pass, hl, hs, if_neg (not_not_intro hnp), Except.map]
    · simp only [device_pass, hl, hs, if_pos hnp, Except.map]
  · intro mask v
    induction mask generalizing v with
    | nil => rfl
    | cons b m ih =>
      match v with
      | [] => cases b <;> rfl
      | x :: xs =>
        cases b
        · show maskSelect (false :: m) (0 :: maskZero m xs) = maskSelect (false :: m) (x :: xs)
          rw [maskSelect, maskSelect]
          exact ih xs
        · show maskSelect (true :: m) (x :: maskZero m xs) = maskSelect (true :: m) (x :: xs)
          rw [maskSelect, maskSelect]
          rw [ih xs]
  · intro a b c hb
    rw [normL, normL]
    simp only [List.map_cons, List.map_nil, List.sum_cons, List.sum_nil, add_zero]
    apply Real.sqrt_lt_sqrt
    · positivity
    · have hb2 : 0 < b ^ 2 := lt_of_le_of_ne (sq_nonneg b) (Ne.symm (pow_ne_zero 2 hb))
      nlinarith [hb2]
  · have ea : normL ([3, 4, 0] : List ℝ) = 5 :=
      normL_three 3 4 0 5 (by norm_num) (by norm_num)
    have eb : normL ([3, 0, 0] : List ℝ) = 3 :=
      normL_three 3 0 0 3 (by norm_num) (by norm_num)
    have e0 : normL ([0, 0, 0] : List ℝ) = 0 :=
      normL_three 0 0 0 0 (by norm_num) (by norm_num)
    have h1 : limit_vel cfgUnit [3, 4, 0, 0, 0, 0] devMixedVel =
        Except.ok [3 / 5, 4 / 5, 0, 0, 0, 0] := by
      rw [limit_vel_six cfgUnit devMixedVel (1, 1) rfl 1 1 1 1 1 1 3 4 0 0 0 0 rfl]
      rw [ea, e0]
      norm_num [cfgUnit]
    have h2 : limit_vel cfgUnit [3, 0, 0, 0, 0, 0] devMixedVel =
        Except.ok [1, 0, 0, 0, 0, 0] := by
      rw [limit_vel_six cfgUnit devMixedVel (1, 1) rfl 1 1 1 1 1 1 3 0 0 0 0 0 rfl]
      rw [eb, e0]
      norm_num [cfgUnit]
    rw [h1, h2]
    intro hc
    have h3 := Except.ok.inj hc
    simp only [List.cons.injEq] at h3
    norm_num at h3

/-- Witness for C5 (amended): a translation-only device with zero
orientation block; a mask-empty device pass computed end to end; and the
unselected `y` axis strictly increasing the limiter norm. -/
theorem C5_amended_witness :
    (calc_error q2e0 tgt0 devNone [0, 1, 0] ⟨1, 0, 0, 0⟩).take 3 = [0, 0, 0] ∧
    (calc_error q2e0 tgt0 devMixed [0, 1, 0] ⟨1, 0, 0, 0⟩).drop 3 = [0, 0, 0] ∧
    (∃ v, (device_pass q2e0 oscA [] [] ([], [], []) tdE).map (fun r => r.2.1) =
      Except.ok v) ∧
    normL [3, 0, 0] < normL [3, 4, 0] := by
  refine ⟨?_, ?_, ?_, ?_⟩
  · exact C5_amended.1 q2e0 tgt0 devNone [0, 1, 0] ⟨1, 0, 0, 0⟩ rfl
  · exact C5_amended.2.1 q2e0 tgt0 devMixed [0, 1, 0] ⟨1, 0, 0, 0⟩ rfl rfl rfl
  · exact ⟨_, C5_amended.2.2.1 q2e0 oscA [] [] ([], [], []) tdE cfgUnit
      (listMul (calc_error q2e0 tdE.target tdE.device tdE.ee_xyz tdE.ee_quat)
        (listMul cfgUnit.task_space_gains (cfgUnit.k ++ [1, 1, 1]))) rfl rfl⟩
  · exact C5_amended.2.2.2.2.1 3 4 0 (by norm_num)


/-- Claim C6: with velocity limits configured, the limiter computes the
translation threshold `max_vel_linear / kp * kv` and the orientation
threshold `max_vel_angular / ko * kv`; a sub-vector whose Euclidean norm
exceeds its threshold is uniformly rescaled to that threshold with direction
preserved (scale factor nonnegative), otherwise its scale factor is `1`; and
the returned command is `kv * scale * lamb * raw` componentwise.  The
nonnegativity side conditions on the thresholds express the typical-gain
(positive gains and limits) regime. -/
theorem C6_limit_vel_shape (cfg : ControllerConfig) (d : Device) (mv : ℝ × ℝ)
    (h : d.max_vel = some mv) (u : List ℝ) (F1 F2 : ℝ)
    (hF1 : F1 = if mv.1 / cfg.kp * cfg.kv < normL (u.take 3)
        then mv.1 / cfg.kp * cfg.kv / normL (u.take 3) else 1)
    (hF2 : F2 = if mv.2 / cfg.ko * cfg.kv < normL (u.drop 3)
        then mv.2 / cfg.ko * cfg.kv / normL (u.drop 3) else 1)
    (hT1 : 0 ≤ mv.1 / cfg.kp * cfg.kv) (hT2 : 0 ≤ mv.2 / cfg.ko * cfg.kv) :
    limit_vel cfg u d =
      Except.ok (listMul (listMul ((List.replicate 3 F1 ++ List.replicate 3 F2).map
        (fun x => cfg.kv * x)) cfg.lamb) u) ∧
    (mv.1 / cfg.kp * cfg.kv < normL (u.take 3) →
      normL ((u.take 3).map (fun x => F1 * x)) = mv.1 / cfg.kp * cfg.kv) ∧
    (¬ mv.1 / cfg.kp * cfg.kv < normL (u.take 3) → F1 = 1) ∧
    (mv.2 / cfg.ko * cfg.kv < normL (u.drop 3) →
      normL ((u.drop 3).map (fun x => F2 * x)) = mv.2 / cfg.ko * cfg.kv) ∧
    (¬ mv.2 / cfg.ko * cfg.kv < normL (u.drop 3) → F2 = 1) ∧
    0 ≤ F1 ∧ 0 ≤ F2 := by
  subst hF1
  subst hF2
  refine ⟨?_, ?_, ?_, ?_, ?_, ?_, ?_⟩
  · rw [limit_vel, h]
  · intro hlt
    have hn0 : 0 < normL (u.take 3) := lt_of_le_of_lt hT1 hlt
    rw [if_pos hlt, normL_map_mul,
      abs_of_nonneg (div_nonneg hT1 (le_of_lt hn0))]
    exact div_mul_cancel₀ _ (ne_of_gt hn0)
  · intro hge
    exact if_neg hge
  · intro hlt
    have hn0 : 0 < normL (u.drop 3) := lt_of_le_of_lt hT2 hlt
    rw [if_pos hlt, normL_map_mul,
      abs_of_nonneg (div_nonneg hT2 (le_of_lt hn0))]
    exact div_mul_cancel₀ _ (ne_of_gt hn0)
  · intro hge
    exact if_neg hge
  · by_cases hlt : mv.1 / cfg.kp * cfg.kv < normL (u.take 3)
    · rw [if_pos hlt]
      exact div_nonneg hT1 (le_of_lt (lt_of_le_of_lt hT1 hlt))
    · rw [if_neg hlt]
      exact zero_le_one
  · by_cases hlt : mv.2 / cfg.ko * cfg.kv < normL (u.drop 3)
    · rw [if_pos hlt]
      exact div_nonneg hT2 (le_of_lt (lt_of_le_of_lt hT2 hlt))
    · rw [if_neg hlt]
      exact zero_le_one

/-- Witness for C6: a command whose translation sub-vector `[3, 4, 0]`
(norm `5`) exceeds the threshold `1` and is rescaled to it. -/
theorem C6_limit_vel_shape_witness :
    (∃ v, limit_vel cfgUnit [3, 4, 0, 0, 0, 0] devVel1 = Except.ok v) ∧
    normL ((([3, 4, 0, 0, 0, 0] : List ℝ).take 3).map (fun x => (1 / 5 : ℝ) * x)) =
      1 / cfgUnit.kp * cfgUnit.kv := by
  have h5 : normL (([3, 4, 0, 0, 0, 0] : List ℝ).take 3) = 5 :=
    normL_three 3 4 0 5 (by norm_num) (by norm_num)
  have h0 : normL (([3, 4, 0, 0, 0, 0] : List ℝ).drop 3) = 0 :=
    normL_three 0 0 0 0 (by norm_num) (by norm_num)
  have hF1 : (1 / 5 : ℝ) =
      if (1 : ℝ) / cfgUnit.kp * cfgUnit.kv < normL (([3, 4, 0, 0, 0, 0] : List ℝ).take 3)
      then (1 : ℝ) / cfgUnit.kp * cfgUnit.kv / normL (([3, 4, 0, 0, 0, 0] : List ℝ).take 3)
      else 1 := by
    rw [h5]
    norm_num [cfgUnit]
  have hF2 : (1 : ℝ) =
      if (1 : ℝ) / cfgUnit.ko * cfgUnit.kv < normL (([3, 4, 0, 0, 0, 0] : List ℝ).drop 3)
      then (1 : ℝ) / cfgUnit.ko * cfgUnit.kv / normL (([3, 4, 0, 0, 0, 0] : List ℝ).drop 3)
      else 1 := by
    rw [h0]
    norm_num [cfgUnit]
  have T := C6_limit_vel_shape cfgUnit devVel1 (1, 1) rfl [3, 4, 0, 0, 0, 0]
    (1 / 5) 1 hF1 hF2 (by norm_num [cfgUnit]) (by norm_num [cfgUnit])
  refine ⟨⟨_, T.1⟩, ?_⟩
  exact T.2.1 (by rw [h5]; norm_num [cfgUnit])

/-- Claim C7 fails as stated: with gains `kv = 1`, `kp = ko = 2` and limits
`(2, 2)` (thresholds `1`), the command `[3/5, 0, 0, 3/5, 0, 0]` is not
saturated on the first pass, yet the limiter output `[6/5, 0, 0, 6/5, 0, 0]`
has both sub-vector norms above the thresholds — and a second application
changes it, so the limiter is not idempotent under the stated hypothesis. -/
theorem C7_counterexample :
    limit_vel cfgTwo [3 / 5, 0, 0, 3 / 5, 0, 0] devVel2 =
      Except.ok [6 / 5, 0, 0, 6 / 5, 0, 0] ∧
    2 / cfgTwo.kp * cfgTwo.kv ≤ normL (([6 / 5, 0, 0, 6 / 5, 0, 0] : List ℝ).take 3) ∧
    2 / cfgTwo.ko * cfgTwo.kv ≤ normL (([6 / 5, 0, 0, 6 / 5, 0, 0] : List ℝ).drop 3) ∧
    limit_vel cfgTwo [6 / 5, 0, 0, 6 / 5, 0, 0] devVel2 ≠
      Except.ok [6 / 5, 0, 0, 6 / 5, 0, 0] := by
  have e1 : normL ([3 / 5, 0, 0] : List ℝ) = 3 / 5 :=
    normL_three (3 / 5) 0 0 (3 / 5) (by norm_num) (by norm_num)
  have e2 : normL ([6 / 5, 0, 0] : List ℝ) = 6 / 5 :=
    normL_three (6 / 5) 0 0 (6 / 5) (by norm_num) (by norm_num)
  have h2 : limit_vel cfgTwo [6 / 5, 0, 0, 6 / 5, 0, 0] devVel2 =
      Except.ok [2, 0, 0, 2, 0, 0] := by
    rw [limit_vel_six cfgTwo devVel2 (2, 2) rfl 2 2 2 2 2 2
      (6 / 5) 0 0 (6 / 5) 0 0 rfl]
    rw [e2]
    norm_num [cfgTwo]
  refine ⟨?_, ?_, ?_, ?_⟩
  · rw [limit_vel_six cfgTwo devVel2 (2, 2) rfl 2 2 2 2 2 2
      (3 / 5) 0 0 (3 / 5) 0 0 rfl]
    rw [e1]
    norm_num [cfgTwo]
  · have ht : (([6 / 5, 0, 0, 6 / 5, 0, 0] : List ℝ).take 3) = [6 / 5, 0, 0] := rfl
    rw [ht, e2]
    norm_num [cfgTwo]
  · have hd : (([6 / 5, 0, 0, 6 / 5, 0, 0] : List ℝ).drop 3) = [6 / 5, 0, 0] := rfl
    rw [hd, e2]
    norm_num [cfgTwo]
  · rw [h2]
    intro hc
    have := Except.ok.inj hc
    simp only [List.cons.injEq] at this
    norm_num at this

/-- The folded saturation factor collapses to `1` on a command the previous
pass has already saturated, for gains at least `1`. -/
theorem sat_factor (kv kp T : ℝ) (hkv : kv ≠ 0) (hkp : 1 ≤ kp) (hT : 0 < T) :
    kv * (if T < kp * T then T / (kp * T) else 1) * (kp / kv) = 1 := by
  rcases eq_or_lt_of_le hkp with h1 | h1
  · rw [← h1, one_mul, if_neg (lt_irrefl T), mul_one]
    field_simp
  · have hkp0 : kp ≠ 0 := ne_of_gt (lt_trans one_pos h1)
    rw [if_pos ((lt_mul_iff_one_lt_left hT).2 h1)]
    field_simp
    ring

/-- Claim C7 (amended): with a velocity limit configured, positive
thresholds, gains `kp, ko ≥ 1`, `kv ≠ 0`, the construction-time
`lamb = task_space_gains / kv`, and a raw 6-vector command both of whose
sub-vector norms strictly exceed their thresholds (so the first application
saturates both blocks), applying the limiter twice yields the same result as
applying it once. -/
theorem C7_amended (cfg : ControllerConfig) (d : Device) (mv : ℝ × ℝ)
    (h : d.max_vel = some mv)
    (hlamb : cfg.lamb = [cfg.kp / cfg.kv, cfg.kp / cfg.kv, cfg.kp / cfg.kv,
      cfg.ko / cfg.kv, cfg.ko / cfg.kv, cfg.ko / cfg.kv])
    (hkv : cfg.kv ≠ 0) (hkp : 1 ≤ cfg.kp) (hko : 1 ≤ cfg.ko)
    (u0 u1 u2 u3 u4 u5 : ℝ)
    (hT1 : 0 < mv.1 / cfg.kp * cfg.kv) (hT2 : 0 < mv.2 / cfg.ko * cfg.kv)
    (hn1 : mv.1 / cfg.kp * cfg.kv < normL [u0, u1, u2])
    (hn2 : mv.2 / cfg.ko * cfg.kv < normL [u3, u4, u5]) :
    (limit_vel cfg [u0, u1, u2, u3, u4, u5] d).bind (fun v => limit_vel cfg v d) =
      limit_vel cfg [u0, u1, u2, u3, u4, u5] d := by
  have n1pos : 0 < normL [u0, u1, u2] := lt_trans hT1 hn1
  have n2pos : 0 < normL [u3, u4, u5] := lt_trans hT2 hn2
  have kp0 : (0 : ℝ) < cfg.kp := lt_of_lt_of_le one_pos hkp
  have ko0 : (0 : ℝ) < cfg.ko := lt_of_lt_of_le one_pos hko
  rw [limit_vel_six cfg d mv h (cfg.kp / cfg.kv) (cfg.kp / cfg.kv) (cfg.kp / cfg.kv)
    (cfg.ko / cfg.kv) (cfg.ko / cfg.kv) (cfg.ko / cfg.kv) u0 u1 u2 u3 u4 u5 hlamb]
  simp only [if_pos hn1, if_pos hn2]
  simp only [Except.bind]
  rw [limit_vel_six cfg d mv h (cfg.kp / cfg.kv) (cfg.kp / cfg.kv) (cfg.kp / cfg.kv)
    (cfg.ko / cfg.kv) (cfg.ko / cfg.kv) (cfg.ko / cfg.kv)
    (cfg.kv * (mv.1 / cfg.kp * cfg.kv / normL [u0, u1, u2]) * (cfg.kp / cfg.kv) * u0)
    (cfg.kv * (mv.1 / cfg.kp * cfg.kv / normL [u0, u1, u2]) * (cfg.kp / cfg.kv) * u1)
    (cfg.kv * (mv.1 / cfg.kp * cfg.kv / normL [u0, u1, u2]) * (cfg.kp / cfg.kv) * u2)
    (cfg.kv * (mv.2 / cfg.ko * cfg.kv / normL [u3, u4, u5]) * (cfg.ko / cfg.kv) * u3)
    (cfg.kv * (mv.2 / cfg.ko * cfg.kv / normL [u3, u4, u5]) * (cfg.ko / cfg.kv) * u4)
    (cfg.kv * (mv.2 / cfg.ko * cfg.kv / normL [u3, u4, u5]) * (cfg.ko / cfg.kv) * u5)
    hlamb]
  have hs1 : cfg.kv * (mv.1 / cfg.kp * cfg.kv / normL [u0, u1, u2]) * (cfg.kp / cfg.kv) =
      cfg.kp * (mv.1 / cfg.kp * cfg.kv) / normL [u0, u1, u2] := by
    field_simp
    ring
  have hs2 : cfg.kv * (mv.2 / cfg.ko * cfg.kv / normL [u3, u4, u5]) * (cfg.ko / cfg.kv) =
      cfg.ko * (mv.2 / cfg.ko * cfg.kv) / normL [u3, u4, u5] := by
    field_simp
    ring
  have hb1 : normL
      [cfg.kv * (mv.1 / cfg.kp * cfg.kv / normL [u0, u1, u2]) * (cfg.kp / cfg.kv) * u0,
       cfg.kv * (mv.1 / cfg.kp * cfg.kv / normL [u0, u1, u2]) * (cfg.kp / cfg.kv) * u1,
       cfg.kv * (mv.1 / cfg.kp * cfg.kv / normL [u0, u1, u2]) * (cfg.kp / cfg.kv) * u2] =
      cfg.kp * (mv.1 / cfg.kp * cfg.kv) := by
    rw [normL_smul3, hs1,
      abs_of_pos (div_pos (mul_pos kp0 hT1) n1pos),
      div_mul_cancel₀ _ (ne_of_gt n1pos)]
  have hb2 : normL
      [cfg.kv * (mv.2 / cfg.ko * cfg.kv / normL [u3, u4, u5]) * (cfg.ko / cfg.kv) * u3,
       cfg.kv * (mv.2 / cfg.ko * cfg.kv / normL [u3, u4, u5]) * (cfg.ko / cfg.kv) * u4,
       cfg.kv * (mv.2 / cfg.ko * cfg.kv / normL [u3, u4, u5]) * (cfg.ko / cfg.kv) * u5] =
      cfg.ko * (mv.2 / cfg.ko * cfg.kv) := by
    rw [normL_smul3, hs2,
      abs_of_pos (div_pos (mul_pos ko0 hT2) n2pos),
      div_mul_cancel₀ _ (ne_of_gt n2pos)]
  rw [hb1, hb2]
  rw [sat_factor cfg.kv cfg.kp (mv.1 / cfg.kp * cfg.kv) hkv hkp hT1]
  rw [sat_factor cfg.kv cfg.ko (mv.2 / cfg.ko * cfg.kv) hkv hko hT2]
  simp only [one_mul]

/-- Witness for C7 (amended): both sub-vectors of `[3, 4, 0, 0, 3, 4]` have
norm `5`, above the thresholds `1` for gains `kv = 1`, `kp = ko = 2` with
limits `(2, 2)`. -/
theorem C7_amended_witness :
    (limit_vel cfgTwo [3, 4, 0, 0, 3, 4] devVel2).bind
      (fun v => limit_vel cfgTwo v devVel2) =
      limit_vel cfgTwo [3, 4, 0, 0, 3, 4] devVel2 := by
  have e1 : normL ([3, 4, 0] : List ℝ) = 5 :=
    normL_three 3 4 0 5 (by norm_num) (by norm_num)
  have e2 : normL ([0, 3, 4] : List ℝ) = 5 :=
    normL_three 0 3 4 5 (by norm_num) (by norm_num)
  exact C7_amended cfgTwo devVel2 (2, 2) rfl (by norm_num [cfgTwo])
    (by norm_num [cfgTwo]) (by norm_num [cfgTwo]) (by norm_num [cfgTwo])
    3 4 0 0 3 4 (by norm_num [cfgTwo]) (by norm_num [cfgTwo])
    (by rw [e1]; norm_num [cfgTwo]) (by rw [e2]; norm_num [cfgTwo])

/-- Claim C3: whenever `|det(J · M_inv · Jᵀ)| < 1e-4`, `OSC.__Mx` takes the
pseudo-inverse path (with `rcond = 1e-5`) instead of the SVD-reciprocal
path and still returns a pair — the degeneracy is never surfaced as an
error; and the reciprocals the pseudo-inverse places on its diagonal are
bounded by the inverse cutoff, so no entry blows up by reciprocating a
vanishing singular value. -/
theorem C3_pinv_fallback (np_svd : SvdFn) (J M : List (List ℝ))
    (h : |detL (matMul J (matMul (svd_solve np_svd M) (transposeL J)))| < 1 / 10000) :
    (OSC_Mx np_svd J M).1 =
      np_pinv np_svd (matMul J (matMul (svd_solve np_svd M) (transposeL J)))
        (1 / 100000) ∧
    (OSC_Mx np_svd J M).2 = svd_solve np_svd M ∧
    (∀ (c : ℝ) (s : List ℝ), 0 < c → ∀ r ∈ trunc_recip c s, |r| < c⁻¹) := by
  refine ⟨?_, ?_, ?_⟩
  · rw [OSC_Mx]
    rw [if_neg (not_le.mpr h)]
    norm_num
  · rw [OSC_Mx]
    rw [if_neg (not_le.mpr h)]
  · intro c s hc r hr
    rw [trunc_recip] at hr
    simp only [List.mem_map] at hr
    obtain ⟨x, _, hx⟩ := hr
    by_cases hcx : c < x
    · rw [if_pos hcx] at hx
      rw [← hx, abs_of_pos (inv_pos.mpr (lt_trans hc hcx))]
      exact inv_strictAnti₀ hc hcx
    · rw [if_neg hcx] at hx
      rw [← hx, abs_zero]
      exact inv_pos.mpr hc

/-- Witness for C3: a `1 × 2` Jacobian of zeros against the identity mass
matrix makes `Mx_inv = [[0]]` with determinant `0 < 1e-4`. -/
theorem C3_pinv_fallback_witness :
    (OSC_Mx svd0 [[0, 0]] [[1, 0], [0, 1]]).1 =
      np_pinv svd0
        (matMul [[0, 0]] (matMul (svd_solve svd0 [[1, 0], [0, 1]])
          (transposeL [[0, 0]]))) (1 / 100000) ∧
    ∀ r ∈ trunc_recip 1 [2], |r| < (1 : ℝ)⁻¹ := by
  have hdet : |detL (matMul [[0, 0]] (matMul (svd_solve svd0 [[1, 0], [0, 1]])
      (transposeL [[0, 0]])))| < 1 / 10000 := by
    have hm : matMul [[(0 : ℝ), 0]] (matMul (svd_solve svd0 [[1, 0], [0, 1]])
        (transposeL [[0, 0]])) = [[0]] := by
      norm_num [svd_solve, svd0, matMul, transposeL, colL, diagL, dot, List.range_succ]
    rw [hm]
    have h0 : detL [[(0 : ℝ)]] = 0 := by
      rw [detL]
      exact (Matrix.det_fin_one (toMat [[(0 : ℝ)]])).trans (by norm_num [toMat])
    rw [h0]
    norm_num
  have T := C3_pinv_fallback svd0 [[0, 0]] [[1, 0], [0, 1]] hdet
  exact ⟨T.1, T.2.2 1 [2] one_pos⟩

/-- Claim C1 at the failing input: the target velocity `[1, 0, 0, 0, 0, 0]`
is not the zero vector, yet the device loop takes the pure-damping branch —
`u_all` on the device's joints becomes `-kv * (M·dq)` (here
`-2 * [5, 7] = [-10, -14]`) and no velocity-tracking term is added to the
task-space command (the appended command stays `[0, 0, 0]` although the
tracking term would have contributed `kv * (0 - 1) * 1 = -2` on the first
axis).  The source condition `np.all(target_vel) == 0` fires whenever some
component is zero, not only when all are. -/
theorem C1_damping_on_nonzero_velocity :
    device_pass q2e0 oscC1 [0, 0, 0] [5, 7] ([0, 0], [], []) tdC1 =
      Except.ok ([-10, -14], [0, 0, 0], [0, 0, 0]) ∧
    tdC1.target.xyz_vel ++ tdC1.target.abg_vel ≠ List.replicate 6 (0 : ℝ) := by
  constructor
  · norm_num [device_pass, lookup_config, oscC1, cfgC1, tdC1, devNoVel, tgtC1,
      calc_error, shape_u_task, limit_vel, np_all, np_put, selIdx, maskSelect,
      maskAdd, listMul, listSub, q2e0, List.lookup]
  · norm_num [tdC1, tgtC1, List.replicate]
